import Mathlib

/-
Shallow embedding of the Canvas study-assistant tools
(canvas_mcp.py, canvas_mcp_additional.py, canvas_mcp_complete.py,
canvas_agent.py).

Modelling conventions:
* Timestamps are integers (seconds); one day is 86400 seconds.  Python
  floor division (such as `timedelta.days`) becomes integer division
  `/ 86400`, which agrees with Python flooring for this positive divisor.
* A raw ISO date string is abstracted by whether parsing succeeds
  (`DateStr.valid t`, carrying the parsed timestamp) or raises/returns
  None (`DateStr.invalid`); the tools never inspect the string otherwise.
* Python floats are modelled as exact rationals.
* HTTP calls are oracle arguments of type `Except`: `Except.ok` is the
  JSON payload of a successful call, `Except.error` is a raised
  exception carrying its message (this includes HTTP status errors and
  the ValueError raised when CANVAS_API_KEY is missing).  An exception
  anywhere in a tool body makes the body an `Except.error`, which the
  blanket try/except of every tool turns into a failure dictionary.
* Python `str` values are Lean `String`s; where character-level slicing
  matters (assignment descriptions) they are `List Char`.
-/

def secondsPerDay : Int := 86400

/-- Abstraction of a raw date string: either it parses to a timestamp or
parsing fails (`datetime.fromisoformat` raises ValueError /
`parse_date_string` returns None). -/
inductive DateStr where
  | valid (t : Int)
  | invalid
deriving DecidableEq, Repr

/-- `datetime.fromisoformat(due_at.replace('Z', '+00:00'))` wrapped in
`try/except ValueError`: `none` means the ValueError branch. -/
def fromisoformat : DateStr → Option Int
  | DateStr.valid t => some t
  | DateStr.invalid => none

/-- Python truthiness of an optional string: `None` and `""` are falsy. -/
def truthyStr : Option String → Bool
  | none => false
  | some s => s != ""

/-- Python `needle in hay` for strings: substring containment. -/
def containsSub (needle hay : List Char) : Bool :=
  decide (needle <:+: hay)

/-- Python `s.lower()` as a character list (ASCII-faithful). -/
def lowerChars (s : String) : List Char :=
  s.toList.map Char.toLower

/- ===================================================================
   canvas_mcp.py
   =================================================================== -/

/-- A Canvas course object as returned by `/courses` (the fields the
code reads).  `name` is `none` when the key is missing or null. -/
structure RawCourse where
  id : Int
  name : Option String
deriving DecidableEq, Repr

/-- A Canvas assignment object (the fields `canvas_mcp.py` reads). -/
structure RawAssignment where
  name : String
  id : Int
  due_at : Option DateStr
  points_possible : Option ℚ
  submission_types : List String
  html_url : String
  description : Option (List Char)
deriving DecidableEq, Repr

/-- Outcome of the per-course `/courses/{id}/assignments` request:
`httpStatus` is an `httpx.HTTPStatusError` (skipped by the inner
`except`), `other` is any other exception (propagates to the outer
`except`). -/
inductive CourseErr where
  | httpStatus
  | other (msg : String)
deriving DecidableEq, Repr

/-- The `"description"` entry built at canvas_mcp.py lines 112 and 196:
`get('description','')[:200] + "..." if get('description') and
len(get('description','')) > 200 else get('description','')`. -/
def descriptionField (d : Option (List Char)) : List Char :=
  match d with
  | some s => if s ≠ [] ∧ s.length > 200 then s.take 200 ++ "...".toList else s
  | none => []

/-- The `assignment_info` dictionary of `get_upcoming_assignments`
(canvas_mcp.py lines 102-114). -/
structure AssignmentInfo where
  course_name : String
  course_id : Int
  assignment_name : String
  assignment_id : Int
  due_date : Int
  points_possible : Option ℚ
  submission_types : List String
  html_url : String
  description : List Char
  days_until_due : Int
deriving DecidableEq, Repr

/-- Body of the per-assignment loop of `get_upcoming_assignments`
(canvas_mcp.py lines 85-118): skip when `due_at` is falsy, skip when
parsing raises ValueError, keep only `today <= due_date <= end_date`. -/
def processAssignment (today endDate : Int) (courseName : String) (courseId : Int)
    (a : RawAssignment) : Option AssignmentInfo :=
  match a.due_at with
  | none => none
  | some ds =>
    match fromisoformat ds with
    | none => none
    | some d =>
      if today ≤ d ∧ d ≤ endDate then
        some { course_name := courseName
               course_id := courseId
               assignment_name := a.name
               assignment_id := a.id
               due_date := d
               points_possible := a.points_possible
               submission_types := a.submission_types
               html_url := a.html_url
               description := descriptionField a.description
               days_until_due := (d - today) / secondsPerDay }
      else none

/-- The per-course loop of `get_upcoming_assignments` (canvas_mcp.py
lines 67-122): skip courses with falsy names, skip courses whose
assignment request raises `httpx.HTTPStatusError`, let any other
exception propagate. -/
def collectUpcoming (fetch : Int → Except CourseErr (List RawAssignment))
    (today endDate : Int) : List RawCourse → Except String (List AssignmentInfo)
  | [] => Except.ok []
  | c :: rest =>
    if truthyStr c.name then
      match fetch c.id with
      | Except.error CourseErr.httpStatus => collectUpcoming fetch today endDate rest
      | Except.error (CourseErr.other msg) => Except.error msg
      | Except.ok ras =>
        match collectUpcoming fetch today endDate rest with
        | Except.error e => Except.error e
        | Except.ok tail =>
          Except.ok (ras.filterMap (processAssignment today endDate (c.name.getD "") c.id) ++ tail)
    else collectUpcoming fetch today endDate rest

/-- `all_assignments.sort(key=lambda x: x['due_date'])`: the due_date
ISO strings share one timezone rendering, so string order is timestamp
order; Python sort is stable, as is `mergeSort`. -/
def sortByDueDate (l : List AssignmentInfo) : List AssignmentInfo :=
  l.mergeSort fun x y => decide (x.due_date ≤ y.due_date)

/-- The try-block of `get_upcoming_assignments` up to the success
return.  `coursesE` is the `/courses` request. -/
def upcomingBody (days_ahead today : Int)
    (coursesE : Except String (List RawCourse))
    (fetch : Int → Except CourseErr (List RawAssignment)) :
    Except String (List AssignmentInfo) :=
  match coursesE with
  | Except.error e => Except.error e
  | Except.ok courses =>
    collectUpcoming fetch today (today + days_ahead * secondsPerDay) courses

/-- Return dictionary of `get_upcoming_assignments`.  On failure the
Python dict has no `total_assignments`/`date_range` keys; they are 0 and
`none` here. -/
structure UpcomingResult where
  success : Bool
  total_assignments : Nat
  date_range : Option (Int × Int)
  assignments : List AssignmentInfo
  error : Option String
deriving DecidableEq, Repr

/-- `get_upcoming_assignments` (canvas_mcp.py lines 44-139). -/
def get_upcoming_assignments (days_ahead today : Int)
    (coursesE : Except String (List RawCourse))
    (fetch : Int → Except CourseErr (List RawAssignment)) : UpcomingResult :=
  match upcomingBody days_ahead today coursesE fetch with
  | Except.ok infos =>
    { success := true
      total_assignments := (sortByDueDate infos).length
      date_range := some (today, today + days_ahead * secondsPerDay)
      assignments := sortByDueDate infos
      error := none }
  | Except.error e =>
    { success := false
      total_assignments := 0
      date_range := none
      assignments := []
      error := some e }

/-- The `assignment_info` dictionary of `get_assignments_by_course`
(canvas_mcp.py lines 188-198); no course fields. -/
structure AssignmentInfoB where
  assignment_name : String
  assignment_id : Int
  due_date : Int
  points_possible : Option ℚ
  submission_types : List String
  html_url : String
  description : List Char
  days_until_due : Int
deriving DecidableEq, Repr

/-- Per-assignment loop body of `get_assignments_by_course`
(canvas_mcp.py lines 173-201), identical filtering to
`processAssignment`. -/
def processAssignmentB (today endDate : Int) (a : RawAssignment) :
    Option AssignmentInfoB :=
  match a.due_at with
  | none => none
  | some ds =>
    match fromisoformat ds with
    | none => none
    | some d =>
      if today ≤ d ∧ d ≤ endDate then
        some { assignment_name := a.name
               assignment_id := a.id
               due_date := d
               points_possible := a.points_possible
               submission_types := a.submission_types
               html_url := a.html_url
               description := descriptionField a.description
               days_until_due := (d - today) / secondsPerDay }
      else none

def sortByDueDateB (l : List AssignmentInfoB) : List AssignmentInfoB :=
  l.mergeSort fun x y => decide (x.due_date ≤ y.due_date)

/-- Try-block of `get_assignments_by_course`: course request, then
assignments request (neither wrapped in an inner try), then the filter
loop; `course['name']` raises KeyError when the name is missing. -/
def byCourseBody (days_ahead today : Int)
    (courseE : Except String RawCourse)
    (assignmentsE : Except String (List RawAssignment)) :
    Except String (String × List AssignmentInfoB) :=
  match courseE with
  | Except.error e => Except.error e
  | Except.ok course =>
    match assignmentsE with
    | Except.error e => Except.error e
    | Except.ok ras =>
      match course.name with
      | none => Except.error "KeyError: name"
      | some n =>
        Except.ok (n, ras.filterMap (processAssignmentB today (today + days_ahead * secondsPerDay)))

/-- Return dictionary of `get_assignments_by_course`. -/
structure ByCourseResult where
  success : Bool
  course_name : Option String
  course_id : Int
  total_assignments : Nat
  assignments : List AssignmentInfoB
  error : Option String
deriving DecidableEq, Repr

/-- `get_assignments_by_course` (canvas_mcp.py lines 142-219). -/
def get_assignments_by_course (course_id days_ahead today : Int)
    (courseE : Except String RawCourse)
    (assignmentsE : Except String (List RawAssignment)) : ByCourseResult :=
  match byCourseBody days_ahead today courseE assignmentsE with
  | Except.ok r =>
    { success := true
      course_name := some r.1
      course_id := course_id
      total_assignments := (sortByDueDateB r.2).length
      assignments := sortByDueDateB r.2
      error := none }
  | Except.error e =>
    { success := false
      course_name := none
      course_id := course_id
      total_assignments := 0
      assignments := []
      error := some e }

/- ===================================================================
   canvas_mcp_additional.py
   =================================================================== -/

/-- Modelled from the spec: `parse_date_string` is imported from the
full canvas_mcp module, which is not under src/; per the spec's
"filter by date" glue it converts an ISO date string to a datetime and
yields None for a missing or unparseable input. -/
def parse_date_string : Option DateStr → Option Int
  | none => none
  | some ds => fromisoformat ds

/-- The uniform response envelope produced by `format_response`
(metadata timing fields omitted; `δ` is the tool-specific payload). -/
structure FResponse (δ : Type) where
  success : Bool
  data : Option δ
  error : Option String
deriving DecidableEq, Repr

/-- Modelled from the spec: `format_response` is imported from the full
canvas_mcp module, which is not under src/.  Per the spec's blanket
"try/catch-and-report" design it wraps either a success payload or an
error string in a uniform success/data/error envelope. -/
def format_response {δ : Type} (success : Bool) (data : Option δ)
    (error : Option String) : FResponse δ :=
  { success := success, data := data, error := error }

/-- Python `datetime.weekday()` (Monday = 0) of a timestamp; day 0 of
the epoch was a Thursday (weekday 3). -/
def pyWeekday (t : Int) : Int :=
  (t / secondsPerDay + 3) % 7

/-- The date-context resolution of `identify_test_by_context`
(canvas_mcp_additional.py lines 46-65). -/
def identifyTarget (date_context : String) (today : Int) : Int :=
  let lower := lowerChars date_context
  if containsSub "thursday".toList lower then
    let da := 3 - pyWeekday today
    today + (if da ≤ 0 then da + 7 else da) * secondsPerDay
  else if containsSub "friday".toList lower then
    let da := 4 - pyWeekday today
    today + (if da ≤ 0 then da + 7 else da) * secondsPerDay
  else if containsSub "next week".toList lower then
    today + 7 * secondsPerDay
  else if containsSub "this week".toList lower then
    today + 3 * secondsPerDay
  else
    today + 7 * secondsPerDay

/-- A Canvas course as read by canvas_mcp_additional.py (`course['id']`,
`course['name']`). -/
structure ACourse where
  id : Int
  name : String
deriving DecidableEq, Repr

/-- A Canvas assignment as read by `identify_test_by_context`
(`assignment['title']`, `assignment['id']`, due_at, ...). -/
structure ARawAssignment where
  id : Int
  title : String
  due_at : Option DateStr
  points_possible : Option ℚ
  html_url : String
  description : String
deriving DecidableEq, Repr

/-- A Canvas calendar event as read by `identify_test_by_context`. -/
structure RawEvent where
  id : Int
  title : String
  start_at : Option DateStr
  html_url : String
  description : String
  location_name : String
deriving DecidableEq, Repr

def test_keywords : List String :=
  ["exam", "test", "quiz", "midterm", "final", "assessment"]

/-- `any(keyword in title_lower for keyword in test_keywords)`. -/
def hasTestKeyword (titleLower : List Char) : Bool :=
  test_keywords.any fun k => containsSub k.toList titleLower

/-- A candidate dictionary of `identify_test_by_context`
(canvas_mcp_additional.py lines 133-144 and 170-182). -/
structure Candidate where
  id : String
  name : String
  course_name : String
  course_id : String
  due_at : Int
  points_possible : ℚ
  type : String
  html_url : String
  description : String
  location : Option String
  confidence_score : ℚ
deriving DecidableEq, Repr

/-- Confidence score for an assignment candidate
(canvas_mcp_additional.py lines 118-131, capped at line 143). -/
def assignmentConfidence (hint : Option String) (target d : Int)
    (titleLower : List Char) : ℚ :=
  let c1 : ℚ := 1/2
  let c2 := if ((d - target) / secondsPerDay).natAbs ≤ 1 then c1 + 3/10 else c1
  let c3 := if truthyStr hint ∧ containsSub (lowerChars (hint.getD "")) titleLower
            then c2 + 2/10 else c2
  let c4 := if ["exam", "midterm", "final"].any (fun k => containsSub k.toList titleLower)
            then c3 + 2/10 else c3
  min c4 1

/-- Confidence score for a calendar-event candidate
(canvas_mcp_additional.py lines 159-168, capped at line 181). -/
def eventConfidence (hint : Option String) (target d : Int)
    (titleLower : List Char) : ℚ :=
  let c1 : ℚ := 4/10
  let c2 := if ((d - target) / secondsPerDay).natAbs ≤ 1 then c1 + 3/10 else c1
  let c3 := if truthyStr hint ∧ containsSub (lowerChars (hint.getD "")) titleLower
            then c2 + 2/10 else c2
  min c3 1

/-- Per-assignment body of `identify_test_by_context`
(canvas_mcp_additional.py lines 107-145): skip missing/unparseable
dates, keep the search window, keep only test-keyword titles. -/
def assignmentCandidate (hint : Option String) (target startD endD : Int)
    (courseName : String) (courseId : Int) (a : ARawAssignment) : Option Candidate :=
  match parse_date_string a.due_at with
  | none => none
  | some d =>
    if startD ≤ d ∧ d ≤ endD then
      let titleLower := lowerChars a.title
      if hasTestKeyword titleLower then
        some { id := toString a.id
               name := a.title
               course_name := courseName
               course_id := toString courseId
               due_at := d
               points_possible := a.points_possible.getD 0
               type := "assignment"
               html_url := a.html_url
               description := a.description
               location := none
               confidence_score := assignmentConfidence hint target d titleLower }
      else none
    else none

/-- Per-event body of `identify_test_by_context`
(canvas_mcp_additional.py lines 148-183). -/
def eventCandidate (hint : Option String) (target startD endD : Int)
    (courseName : String) (courseId : Int) (e : RawEvent) : Option Candidate :=
  match parse_date_string e.start_at with
  | none => none
  | some d =>
    if startD ≤ d ∧ d ≤ endD then
      let titleLower := lowerChars e.title
      if hasTestKeyword titleLower then
        some { id := toString e.id
               name := e.title
               course_name := courseName
               course_id := toString courseId
               due_at := d
               points_possible := 0
               type := "event"
               html_url := e.html_url
               description := e.description
               location := some e.location_name
               confidence_score := eventConfidence hint target d titleLower }
      else none
    else none

/-- Per-course body of `identify_test_by_context` (lines 83-187): the
inner `except Exception` skips the whole course on any fetch error. -/
def courseCandidates (hint : Option String) (target startD endD : Int)
    (fetch : Int → Except Unit (List ARawAssignment × List RawEvent))
    (c : ACourse) : List Candidate :=
  match fetch c.id with
  | Except.error _ => []
  | Except.ok p =>
    p.1.filterMap (assignmentCandidate hint target startD endD c.name c.id) ++
    p.2.filterMap (eventCandidate hint target startD endD c.name c.id)

/-- Course filter by subject hint (canvas_mcp_additional.py lines
77-79); `if subject_hint:` is Python truthiness. -/
def filterBySubject (hint : Option String) (cs : List ACourse) : List ACourse :=
  if truthyStr hint then
    cs.filter fun c => containsSub (lowerChars (hint.getD "")) (lowerChars c.name)
  else cs

/-- `candidates.sort(key=lambda x: x['confidence_score'], reverse=True)`
(stable descending sort, like Python list.sort). -/
def sortByConfidence (l : List Candidate) : List Candidate :=
  l.mergeSort fun x y => decide (y.confidence_score ≤ x.confidence_score)

/-- The data payload of a successful `identify_test_by_context` call
(metadata timing fields omitted). -/
structure IdentifyData where
  best_match : Option Candidate
  all_candidates : List Candidate
  total_candidates : Nat
  target_date : Int
  window_start : Int
  window_end : Int
deriving DecidableEq, Repr

/-- Try-block of `identify_test_by_context`; `coursesE` is the
paginated `/courses` request. -/
def identifyBody (date_context : String) (hint : Option String) (today : Int)
    (coursesE : Except String (List ACourse))
    (fetch : Int → Except Unit (List ARawAssignment × List RawEvent)) :
    Except String IdentifyData :=
  match coursesE with
  | Except.error e => Except.error e
  | Except.ok cs =>
    let target := identifyTarget date_context today
    let startD := target - 2 * secondsPerDay
    let endD := target + 2 * secondsPerDay
    let courses := filterBySubject hint cs
    let cands := sortByConfidence
      ((courses.map (courseCandidates hint target startD endD fetch)).flatten)
    Except.ok { best_match := cands.head?
                all_candidates := cands
                total_candidates := cands.length
                target_date := target
                window_start := startD
                window_end := endD }

/-- `identify_test_by_context` (canvas_mcp_additional.py lines 31-224). -/
def identify_test_by_context (date_context : String) (hint : Option String)
    (today : Int) (coursesE : Except String (List ACourse))
    (fetch : Int → Except Unit (List ARawAssignment × List RawEvent)) :
    FResponse IdentifyData :=
  match identifyBody date_context hint today coursesE fetch with
  | Except.ok d => format_response true (some d) none
  | Except.error e =>
    format_response false none (some ("Failed to identify test by context: " ++ e))

/-- The letter-grade thresholds of `calculate_grade_impact`
(canvas_mcp_additional.py lines 1015-1018), in insertion order. -/
def letter_grade_thresholds : List (String × ℚ) :=
  [("A", 93), ("A-", 90), ("B+", 87), ("B", 83), ("B-", 80),
   ("C+", 77), ("C", 73), ("C-", 70), ("D+", 67), ("D", 63), ("D-", 60)]

/-- Python `round(x, 1)` (round half to even) on exact rationals. -/
def pyRound1 (x : ℚ) : ℚ :=
  let f : ℤ := ⌊10 * x⌋
  let r : ℚ := 10 * x - f
  (if r < 1/2 then (f : ℚ)
   else if 1/2 < r then ((f + 1 : ℤ) : ℚ)
   else if f % 2 = 0 then (f : ℚ) else ((f + 1 : ℤ) : ℚ)) / 10

/-- Value of the `new_points_possible` variable after the scenario
blocks of `calculate_grade_impact` (canvas_mcp_additional.py lines
958-1004): every path through them leaves
`possible_points + assignment_points` when the assignment has no score
yet and `possible_points` otherwise. -/
def newPointsPossibleFinal (possible_points assignment_points current_assignment_score : ℚ) : ℚ :=
  if current_assignment_score = 0 then possible_points + assignment_points
  else possible_points

/-- `minimum_scores_for_letter_grades` (canvas_mcp_additional.py lines
1014-1031): the ordered entries (grade, minimum_percentage,
minimum_points), a grade being present exactly when its unrounded
minimum percentage lies in [0, 100]. -/
def minimum_scores_for_letter_grades
    (current_points possible_points current_assignment_score assignment_points : ℚ) :
    List (String × ℚ × ℚ) :=
  let npp := newPointsPossibleFinal possible_points assignment_points current_assignment_score
  letter_grade_thresholds.filterMap fun gt =>
    let target_points := gt.2 / 100 * npp
    let min_assignment_score := target_points - (current_points - current_assignment_score)
    let min_assignment_percentage :=
      if assignment_points > 0 then min_assignment_score / assignment_points * 100 else 0
    if 0 ≤ min_assignment_percentage ∧ min_assignment_percentage ≤ 100 then
      some (gt.1, pyRound1 min_assignment_percentage, pyRound1 min_assignment_score)
    else none

/-- A module item as read by `create_study_plan` (title, type, url). -/
structure ModuleItem where
  title : String
  type : String
  url : String
deriving DecidableEq, Repr

/-- A Canvas module as read by `create_study_plan`. -/
structure CModule where
  name : Option String
  items : List ModuleItem
deriving DecidableEq, Repr

/-- A study topic of `create_study_plan` (canvas_mcp_additional.py
lines 448-469). -/
structure PlanTopic where
  name : String
  items : List ModuleItem
  estimated_hours : ℚ
deriving DecidableEq, Repr

/-- Topic construction of `create_study_plan` (lines 448-469): skip
modules with falsy names, keep Assignment/Quiz/Page/File items,
estimate `min(len(items) * 0.5, 4.0)` hours. -/
def buildTopics (modules : List CModule) : List PlanTopic :=
  modules.filterMap fun m =>
    if truthyStr m.name then
      let items := m.items.filter fun i =>
        i.type ∈ ["Assignment", "Quiz", "Page", "File"]
      some { name := m.name.getD ""
             items := items
             estimated_hours := min ((items.length : ℚ) * (1/2)) 4 }
    else none

/-- The scaling step of `create_study_plan` (lines 475-480); dividing
by a zero `total_estimated_hours` raises ZeroDivisionError, which the
blanket except turns into a failure. -/
def scaleTopics (total_available : ℚ) (topics : List PlanTopic) :
    Except String (List PlanTopic) :=
  let total_estimated := (topics.map (fun t => t.estimated_hours)).sum
  if total_estimated > total_available then
    if total_estimated = 0 then Except.error "float division by zero"
    else
      let sf := total_available / total_estimated
      Except.ok (topics.map fun t => { t with estimated_hours := t.estimated_hours * sf })
  else Except.ok topics

/-- One topic allocation inside a day of the study schedule. -/
structure DayTopic where
  name : String
  hours : ℚ
  items : List ModuleItem
deriving DecidableEq, Repr

/-- The while-loop of one day of `create_study_plan` (lines 497-520):
returns the topics scheduled today, the hours used, and the remaining
topic list (with the split topic reduced in place). -/
def fillDay (avail : ℚ) : ℚ → List PlanTopic → (List DayTopic × ℚ × List PlanTopic)
  | used, [] => ([], used, [])
  | used, t :: rest =>
    if used < avail then
      if t.estimated_hours ≤ avail - used then
        let res := fillDay avail (used + t.estimated_hours) rest
        ({ name := t.name, hours := t.estimated_hours, items := t.items } :: res.1,
         res.2.1, res.2.2)
      else
        let partHours := avail - used
        ([{ name := t.name, hours := partHours,
            items := t.items.take (⌊partHours * 2⌋).toNat }], avail,
         { t with estimated_hours := t.estimated_hours - partHours } :: rest)
    else ([], used, t :: rest)

/-- One day entry of the study schedule (lines 488-523). -/
structure DaySchedule where
  date : Int
  topics : List DayTopic
  total_hours : ℚ
deriving DecidableEq, Repr

/-- The `for day in range(days_until_exam)` loop of `create_study_plan`
(lines 487-524). -/
def buildSchedule (avail : ℚ) : Nat → Int → List PlanTopic → List DaySchedule
  | 0, _, _ => []
  | n + 1, currentDay, topics =>
    let fd := fillDay avail 0 topics
    { date := currentDay, topics := fd.1, total_hours := fd.2.1 } ::
      buildSchedule avail n (currentDay + secondsPerDay) fd.2.2

/-- The data payload of a successful `create_study_plan` call.  The
`study_topics` list returned by the Python code is the topic list after
in-place mutation by the scheduling loop; no claim reads it, so it is
omitted here. -/
structure PlanData where
  course_name : String
  days_until_exam : Int
  hours_per_day : ℚ
  total_available_hours : ℚ
  study_schedule : List DaySchedule
  total_days : Int
  total_topics : Nat
  average_hours_per_day : ℚ
deriving DecidableEq, Repr

/-- `create_study_plan` (canvas_mcp_additional.py lines 392-555).
`exam_date` is the raw date-string argument; `courseE` and `modulesE`
are the course and module requests. -/
def create_study_plan (exam_date : DateStr) (today : Int)
    (courseE : Except String ACourse)
    (modulesE : Except String (List CModule))
    (hours_available : Option ℚ) : FResponse PlanData :=
  match parse_date_string (some exam_date) with
  | none => format_response false none (some "Invalid exam date format")
  | some exam_t =>
    let days_until_exam := (exam_t - today) / secondsPerDay
    if days_until_exam ≤ 0 then
      format_response false none (some "Exam date is in the past")
    else
      match courseE with
      | Except.error e =>
        format_response false none (some ("Failed to create study plan: " ++ e))
      | Except.ok course =>
        match modulesE with
        | Except.error e =>
          format_response false none (some ("Failed to create study plan: " ++ e))
        | Except.ok modules =>
          let hoursEff : ℚ :=
            match hours_available with
            | some h => h
            | none =>
              if days_until_exam ≥ 14 then 2
              else if days_until_exam ≥ 7 then 3 else 4
          let topics0 := buildTopics modules
          let total_available := (days_until_exam : ℚ) * hoursEff
          match scaleTopics total_available topics0 with
          | Except.error e =>
            format_response false none (some ("Failed to create study plan: " ++ e))
          | Except.ok topics =>
            format_response true
              (some { course_name := course.name
                      days_until_exam := days_until_exam
                      hours_per_day := hoursEff
                      total_available_hours := total_available
                      study_schedule := buildSchedule hoursEff days_until_exam.toNat today topics
                      total_days := days_until_exam
                      total_topics := topics.length
                      average_hours_per_day := hoursEff }) none

/- ===================================================================
   canvas_mcp_complete.py
   =================================================================== -/

/-- The Canvas API serves list endpoints in pages (Canvas caps
`per_page` at 100): the full data a list endpoint exposes is the
concatenation of its pages, each page reachable from the previous one
by the Link header. -/
def firstPageOnly {α : Type} (pages : List (List α)) : List α :=
  pages.headD []

/-- Modelled from the spec: `get_all_paginated_data` is imported from
the full canvas_mcp module, which is not under src/.  Per the spec's
"fetch data, paginate" glue it requests the first page and keeps
following the next-page link until no page remains, concatenating the
items. -/
def get_all_paginated_data {α : Type} : List (List α) → List α
  | [] => []
  | page :: rest => page ++ get_all_paginated_data rest

/-- `run_tool` (canvas_mcp_complete.py lines 586-602).  The registry
maps a tool name to the outcome of `await tool_func(**kwargs)`:
`Except.ok` is the dictionary the tool returned, `Except.error` an
exception raised by the call (such as a TypeError for bad kwargs). -/
def run_tool {δ : Type} (registry : String → Option (Except String (FResponse δ)))
    (tool_name : String) : FResponse δ :=
  match registry tool_name with
  | none =>
    format_response false none (some ("Tool " ++ tool_name ++ " not found"))
  | some (Except.ok r) => r
  | some (Except.error e) =>
    format_response false none (some ("Error running tool " ++ tool_name ++ ": " ++ e))

/- ===================================================================
   canvas_agent.py
   =================================================================== -/

/-- The intent dictionary returned by `parse_user_intent`. -/
structure Intent where
  tool : String
  course_id : Option Int
deriving DecidableEq, Repr

/-- Python whitespace class `\s` of `re` (ASCII portion). -/
def isPySpace (c : Char) : Bool :=
  c = ' ' ∨ c = '\t' ∨ c = '\n' ∨ c = '\r' ∨ c = '\x0b' ∨ c = '\x0c'

def digitsToNat (ds : List Char) : Nat :=
  ds.foldl (fun n c => n * 10 + (c.toNat - 48)) 0

/-- One anchored attempt of the regex `course\s*(\d+)`: the literal
`course`, then greedy whitespace, then at least one digit. -/
def matchCourseAt (cs : List Char) : Option Nat :=
  if cs.take 6 = "course".toList then
    let rest := (cs.drop 6).dropWhile isPySpace
    let digits := rest.takeWhile Char.isDigit
    if digits = [] then none else some (digitsToNat digits)
  else none

/-- `re.search(r'course\s*(\d+)', text)`: leftmost match wins. -/
def searchCourseId : List Char → Option Nat
  | [] => none
  | c :: rest =>
    match matchCourseAt (c :: rest) with
    | some n => some n
    | none => searchCourseId rest

/-- `parse_user_intent` (canvas_agent.py lines 68-100). -/
def parse_user_intent (user_input : String) : Intent :=
  let lower := lowerChars user_input
  if ["upcoming", "due", "assignments", "homework"].any
      (fun w => containsSub w.toList lower) then
    if containsSub "course".toList lower ∧ user_input.toList.any Char.isDigit then
      match searchCourseId lower with
      | some cid => { tool := "get_assignments_by_course", course_id := some (cid : Int) }
      | none => { tool := "get_upcoming_assignments", course_id := none }
    else { tool := "get_upcoming_assignments", course_id := none }
  else if ["overdue", "late", "missed"].any (fun w => containsSub w.toList lower) then
    { tool := "get_overdue_assignments", course_id := none }
  else if containsSub "course".toList lower ∧ user_input.toList.any Char.isDigit then
    match searchCourseId lower with
    | some cid => { tool := "get_assignments_by_course", course_id := some (cid : Int) }
    | none => { tool := "get_upcoming_assignments", course_id := none }
  else { tool := "get_upcoming_assignments", course_id := none }

/- ===================================================================
   Short-TTL cache (spec-modelled)
   =================================================================== -/

/-- Modelled from the spec: the cache layer behind the `cache_ttl`
arguments lives in the full canvas_mcp module, which is not under src/.
Per the spec ("an unbounded/short-TTL in-memory convenience, not an
eviction engine") it is an in-memory map from endpoint to a stored
value with its store time; nothing is ever evicted for space. -/
structure CacheState (α : Type) where
  entries : List (String × Int × α)
deriving DecidableEq, Repr

/-- Replace the entry for one endpoint, or add it; all other entries
are kept. -/
def cacheStore {α : Type} (st : CacheState α) (endpoint : String) (now : Int)
    (v : α) : CacheState α :=
  { entries := (endpoint, now, v) ::
      st.entries.filter (fun e => e.1 ≠ endpoint) }

/-- Modelled from the spec: one cached request.  A stored value younger
than `ttl` seconds is returned without an HTTP request (third component
`false`); otherwise the fetched value is returned, stored, and the HTTP
request is recorded (`true`). -/
def cachedRequest {α : Type} (st : CacheState α) (now ttl : Int)
    (endpoint : String) (fetched : α) : α × CacheState α × Bool :=
  match st.entries.find? (fun e => e.1 = endpoint) with
  | some e =>
    if now - e.2.1 < ttl then (e.2.2, st, false)
    else (fetched, cacheStore st endpoint now fetched, true)
  | none => (fetched, cacheStore st endpoint now fetched, true)

/- ===================================================================
   Specification-side definitions (for refinement-style claims)
   =================================================================== -/

/-- The description behaviour as the specification claim states it: the
original description when absent or at most 200 characters long,
otherwise exactly its first 200 characters followed by `...`. -/
def description_spec (d : Option (List Char)) : List Char :=
  match d with
  | none => []
  | some s => if s.length ≤ 200 then s else s.take 200 ++ "...".toList

/-- The minimum-percentage formula as the specification claim states
it: `((t/100) * total_possible_points - (current_points -
current_assignment_score)) / assignment_points * 100`, with the total
possible points including this assignment. -/
def claimMinPct (cp pp cas ap thr : ℚ) : ℚ :=
  (thr / 100 * newPointsPossibleFinal pp ap cas - (cp - cas)) / ap * 100

/-- Two pages of courses, used to exhibit pagination behaviour. -/
def c7pages : List (List RawCourse) :=
  [[{ id := 1, name := some "Course One" }], [{ id := 2, name := some "Course Two" }]]

/-- Per-course assignment oracle for the pagination example: one
assignment due five days in. -/
def c7fetch : Int → Except CourseErr (List RawAssignment) :=
  fun cid => Except.ok [{ name := "HW", id := cid, due_at := some (DateStr.valid 432000),
                          points_possible := none, submission_types := [], html_url := "",
                          description := none }]

/-- One module with one Page item, used in the study-plan example. -/
def c10modules : List CModule :=
  [{ name := some "M", items := [{ title := "I", type := "Page", url := "" }] }]

/- ===================================================================
   Theorems
   =================================================================== -/

/-- C1: Every public tool is failure-contained by a blanket
try/catch-and-report: whenever the tool body raises (an `Except.error`
from any request, including HTTP errors and the missing CANVAS_API_KEY
ValueError), the tool returns a dictionary with `success = False`, an
`error` string describing the exception, and an empty or absent result
payload, for the three cited tools `get_upcoming_assignments`,
`identify_test_by_context` and `run_tool`. -/
theorem canvas_tools_failure_contained :
    (∀ (days today : Int) (cE : Except String (List RawCourse))
       (f : Int → Except CourseErr (List RawAssignment)) (e : String),
       upcomingBody days today cE f = Except.error e →
       get_upcoming_assignments days today cE f =
         { success := false, total_assignments := 0, date_range := none,
           assignments := [], error := some e }) ∧
    (∀ (days today : Int) (cE : Except String (List RawCourse))
       (f : Int → Except CourseErr (List RawAssignment)),
       (get_upcoming_assignments days today cE f).success = false →
       (get_upcoming_assignments days today cE f).error.isSome = true ∧
       (get_upcoming_assignments days today cE f).assignments = []) ∧
    (∀ (ctx : String) (hint : Option String) (today : Int)
       (cE : Except String (List ACourse))
       (f : Int → Except Unit (List ARawAssignment × List RawEvent)) (e : String),
       identifyBody ctx hint today cE f = Except.error e →
       identify_test_by_context ctx hint today cE f =
         format_response false none (some ("Failed to identify test by context: " ++ e))) ∧
    (∀ (ctx : String) (hint : Option String) (today : Int)
       (cE : Except String (List ACourse))
       (f : Int → Except Unit (List ARawAssignment × List RawEvent)),
       (identify_test_by_context ctx hint today cE f).success = false →
       (identify_test_by_context ctx hint today cE f).error.isSome = true ∧
       (identify_test_by_context ctx hint today cE f).data = none) ∧
    (∀ (δ : Type) (registry : String → Option (Except String (FResponse δ)))
       (name : String),
       (registry name = none →
         run_tool registry name =
           format_response false none (some ("Tool " ++ name ++ " not found"))) ∧
       (∀ e, registry name = some (Except.error e) →
         run_tool registry name =
           format_response false none
             (some ("Error running tool " ++ name ++ ": " ++ e)))) := by
  refine ⟨?_, ?_, ?_, ?_, ?_⟩
  · intro days today cE f e h
    unfold get_upcoming_assignments
    rw [h]
  · intro days today cE f h
    unfold get_upcoming_assignments at h ⊢
    cases hb : upcomingBody days today cE f with
    | ok infos => rw [hb] at h; simp at h
    | error e => exact ⟨rfl, rfl⟩
  · intro ctx hint today cE f e h
    unfold identify_test_by_context
    rw [h]
  · intro ctx hint today cE f h
    unfold identify_test_by_context at h ⊢
    cases hb : identifyBody ctx hint today cE f with
    | ok d => rw [hb] at h; simp [format_response] at h
    | error e => exact ⟨rfl, rfl⟩
  · intro δ registry name
    constructor
    · intro h; unfold run_tool; rw [h]
    · intro e h; unfold run_tool; rw [h]

/-- Closed instance of C1: a missing CANVAS_API_KEY (the `/courses`
request raising) is reported, not propagated, by each cited tool. -/
theorem canvas_tools_failure_contained_witness :
    get_upcoming_assignments 30 0
        (Except.error "CANVAS_API_KEY environment variable is required")
        (fun _ => Except.ok []) =
      { success := false, total_assignments := 0, date_range := none,
        assignments := [],
        error := some "CANVAS_API_KEY environment variable is required" } ∧
    identify_test_by_context "thursday" none 0 (Except.error "boom")
        (fun _ => Except.ok ([], [])) =
      format_response false none
        (some "Failed to identify test by context: boom") ∧
    run_tool (fun _ => (none : Option (Except String (FResponse Unit)))) "nope" =
      format_response false none (some "Tool nope not found") :=
  ⟨canvas_tools_failure_contained.1 30 0 _ _ _ rfl,
   canvas_tools_failure_contained.2.2.1 "thursday" none 0 _ _ "boom" rfl,
   (canvas_tools_failure_contained.2.2.2.2 Unit _ "nope").1 rfl⟩

theorem descriptionField_eq_spec (d : Option (List Char)) :
    descriptionField d = description_spec d ∧ (descriptionField d).length ≤ 203 := by
  cases d with
  | none => simp [descriptionField, description_spec]
  | some s =>
    by_cases h : s.length ≤ 200
    · have hc : ¬(s ≠ [] ∧ s.length > 200) := by
        intro hcon; omega
      simp only [descriptionField, description_spec, if_pos h, if_neg hc]
      exact ⟨by trivial, by omega⟩
    · have hne : s ≠ [] := by
        intro hnil; rw [hnil] at h; simp at h
      have hc : s ≠ [] ∧ s.length > 200 := ⟨hne, by omega⟩
      simp only [descriptionField, description_spec, if_pos hc, if_neg h]
      refine ⟨by trivial, ?_⟩
      rw [List.length_append, List.length_take]
      have hdots : ("...".toList).length = 3 := by decide
      omega

/-- C9: In the assignments returned by `get_upcoming_assignments` and
`get_assignments_by_course`, the description field equals the original
description when it is absent or at most 200 characters long, and
otherwise equals exactly the first 200 characters followed by `...`,
so its length is at most 203 characters. -/
theorem description_truncation :
    (∀ (today endD : Int) (cn : String) (ci : Int) (a : RawAssignment)
       (info : AssignmentInfo),
       processAssignment today endD cn ci a = some info →
       info.description = description_spec a.description ∧
       info.description.length ≤ 203) ∧
    (∀ (today endD : Int) (a : RawAssignment) (info : AssignmentInfoB),
       processAssignmentB today endD a = some info →
       info.description = description_spec a.description ∧
       info.description.length ≤ 203) := by
  constructor
  · intro today endD cn ci a info h
    unfold processAssignment at h
    split at h
    · exact absurd h (by simp)
    · split at h
      · exact absurd h (by simp)
      · split at h
        · have he := Option.some.inj h
          have hdesc : info.description = descriptionField a.description := by
            rw [← he]
          rw [hdesc]
          exact descriptionField_eq_spec a.description
        · exact absurd h (by simp)
  · intro today endD a info h
    unfold processAssignmentB at h
    split at h
    · exact absurd h (by simp)
    · split at h
      · exact absurd h (by simp)
      · split at h
        · have he := Option.some.inj h
          have hdesc : info.description = descriptionField a.description := by
            rw [← he]
          rw [hdesc]
          exact descriptionField_eq_spec a.description
        · exact absurd h (by simp)

/-- Closed instance of C9: a 201-character description is cut to its
first 200 characters plus `...`, while a short one is kept verbatim. -/
theorem description_truncation_witness :
    (processAssignment 0 100 "c" 1
        { name := "A", id := 1, due_at := some (DateStr.valid 50),
          points_possible := none, submission_types := [], html_url := "",
          description := some (List.replicate 201 'x') }).map
        (fun i => i.description) =
      some (description_spec (some (List.replicate 201 'x'))) ∧
    description_spec (some (List.replicate 201 'x')) =
      List.replicate 200 'x' ++ "...".toList := by
  have h0 : processAssignment 0 100 "c" 1
      { name := "A", id := 1, due_at := some (DateStr.valid 50),
        points_possible := none, submission_types := [], html_url := "",
        description := some (List.replicate 201 'x') } =
      some { course_name := "c", course_id := 1, assignment_name := "A",
             assignment_id := 1, due_date := 50, points_possible := none,
             submission_types := [], html_url := "",
             description := descriptionField (some (List.replicate 201 'x')),
             days_until_due := (50 - 0) / secondsPerDay } := by
    simp [processAssignment, fromisoformat]
  have h1 := (description_truncation.1 0 100 "c" 1 _ _ h0).1
  constructor
  · rw [h0]
    exact congrArg some h1
  · simp only [description_spec, List.length_replicate]
    rw [if_neg (by omega)]
    rw [List.take_replicate]
    rfl

/-- C8: Any input whose lowercase form contains `overdue` but has no
`course<digits>` match is routed to `get_upcoming_assignments`, never
to `get_overdue_assignments`, because `due` is a substring of
`overdue` and the upcoming branch is tested first. -/
theorem overdue_parsed_as_upcoming :
    ∀ (s : String),
      containsSub "overdue".toList (lowerChars s) = true →
      searchCourseId (lowerChars s) = none →
      parse_user_intent s =
        { tool := "get_upcoming_assignments", course_id := none } := by
  intro s hover hre
  have hdueov : ("due".toList) <:+: ("overdue".toList) := by decide
  have hov : ("overdue".toList) <:+: lowerChars s := by
    have := of_decide_eq_true hover
    exact this
  have hdue : containsSub "due".toList (lowerChars s) = true :=
    decide_eq_true (hdueov.trans hov)
  have hany : (["upcoming", "due", "assignments", "homework"].any
      (fun w => containsSub w.toList (lowerChars s))) = true := by
    rw [List.any_eq_true]
    exact ⟨"due", by simp, hdue⟩
  unfold parse_user_intent
  rw [if_pos hany]
  by_cases hc : containsSub "course".toList (lowerChars s) ∧
      s.toList.any Char.isDigit
  · rw [if_pos hc, hre]
  · rw [if_neg hc]

/-- Closed instance of C8: "show overdue" is routed to
`get_upcoming_assignments`. -/
theorem overdue_parsed_as_upcoming_witness :
    parse_user_intent "show overdue" =
      { tool := "get_upcoming_assignments", course_id := none } :=
  overdue_parsed_as_upcoming "show overdue" (by decide) (by decide)

theorem processAssignment_bounds (today endD : Int) (cn : String) (ci : Int)
    (a : RawAssignment) (info : AssignmentInfo)
    (h : processAssignment today endD cn ci a = some info) :
    today ≤ info.due_date ∧ info.due_date ≤ endD := by
  unfold processAssignment at h
  split at h
  · exact absurd h (by simp)
  · split at h
    · exact absurd h (by simp)
    · split at h
      · rename_i hif
        have he := Option.some.inj h
        rw [← he]
        exact hif
      · exact absurd h (by simp)

theorem processAssignmentB_bounds (today endD : Int)
    (a : RawAssignment) (info : AssignmentInfoB)
    (h : processAssignmentB today endD a = some info) :
    today ≤ info.due_date ∧ info.due_date ≤ endD := by
  unfold processAssignmentB at h
  split at h
  · exact absurd h (by simp)
  · split at h
    · exact absurd h (by simp)
    · split at h
      · rename_i hif
        have he := Option.some.inj h
        rw [← he]
        exact hif
      · exact absurd h (by simp)

theorem collectUpcoming_bounds (fetch : Int → Except CourseErr (List RawAssignment))
    (today endD : Int) :
    ∀ (cs : List RawCourse) (infos : List AssignmentInfo),
      collectUpcoming fetch today endD cs = Except.ok infos →
      ∀ info ∈ infos, today ≤ info.due_date ∧ info.due_date ≤ endD := by
  intro cs
  induction cs with
  | nil =>
    intro infos hok info hm
    unfold collectUpcoming at hok
    have hinf : ([] : List AssignmentInfo) = infos := Except.ok.inj hok
    rw [← hinf] at hm
    simp at hm
  | cons c rest ih =>
    intro infos hok info hm
    unfold collectUpcoming at hok
    split at hok
    · split at hok
      · exact ih infos hok info hm
      · exact absurd hok (by simp)
      · split at hok
        · exact absurd hok (by simp)
        · rename_i ras _ tail htail
          have hinf := Except.ok.inj hok
          rw [← hinf] at hm
          rcases List.mem_append.mp hm with hleft | hright
          · obtain ⟨a, _, ha⟩ := List.mem_filterMap.mp hleft
            exact processAssignment_bounds today endD _ _ a info ha
          · exact ih tail htail info hright
    · exact ih infos hok info hm

/-- C2: `get_upcoming_assignments(days_ahead)` (and
`get_assignments_by_course`) filter by date: every returned assignment
carries a parsed due date between now and now plus `days_ahead` days,
and assignments with a missing or unparseable `due_at` are excluded. -/
theorem upcoming_assignments_date_filter :
    (∀ (days today : Int) (cE : Except String (List RawCourse))
       (f : Int → Except CourseErr (List RawAssignment)) (info : AssignmentInfo),
       info ∈ (get_upcoming_assignments days today cE f).assignments →
       today ≤ info.due_date ∧ info.due_date ≤ today + days * secondsPerDay) ∧
    (∀ (today endD : Int) (cn : String) (ci : Int) (a : RawAssignment),
       a.due_at = none ∨ (∃ ds, a.due_at = some ds ∧ fromisoformat ds = none) →
       processAssignment today endD cn ci a = none) ∧
    (∀ (cid days today : Int) (cE : Except String RawCourse)
       (aE : Except String (List RawAssignment)) (info : AssignmentInfoB),
       info ∈ (get_assignments_by_course cid days today cE aE).assignments →
       today ≤ info.due_date ∧ info.due_date ≤ today + days * secondsPerDay) ∧
    (∀ (today endD : Int) (a : RawAssignment),
       a.due_at = none ∨ (∃ ds, a.due_at = some ds ∧ fromisoformat ds = none) →
       processAssignmentB today endD a = none) := by
  refine ⟨?_, ?_, ?_, ?_⟩
  · intro days today cE f info hm
    unfold get_upcoming_assignments at hm
    cases hb : upcomingBody days today cE f with
    | error e => rw [hb] at hm; simp at hm
    | ok infos =>
      rw [hb] at hm
      dsimp only at hm
      have hm2 : info ∈ infos := by
        unfold sortByDueDate at hm
        rw [List.mem_mergeSort] at hm
        exact hm
      unfold upcomingBody at hb
      cases hcE : cE with
      | error e => rw [hcE] at hb; exact absurd hb (by simp)
      | ok courses =>
        rw [hcE] at hb
        exact collectUpcoming_bounds f today _ courses infos hb info hm2
  · intro today endD cn ci a hbad
    rcases hbad with hnone | ⟨ds, hds, hfi⟩
    · unfold processAssignment
      rw [hnone]
    · unfold processAssignment
      rw [hds]
      simp [hfi]
  · intro cid days today cE aE info hm
    unfold get_assignments_by_course at hm
    cases hb : byCourseBody days today cE aE with
    | error e => rw [hb] at hm; simp at hm
    | ok r =>
      rw [hb] at hm
      dsimp only at hm
      have hm2 : info ∈ r.2 := by
        unfold sortByDueDateB at hm
        rw [List.mem_mergeSort] at hm
        exact hm
      unfold byCourseBody at hb
      cases hcE : cE with
      | error e => rw [hcE] at hb; exact absurd hb (by simp)
      | ok course =>
        rw [hcE] at hb
        cases haE : aE with
        | error e => rw [haE] at hb; exact absurd hb (by simp)
        | ok ras =>
          rw [haE] at hb
          dsimp only at hb
          cases hn : course.name with
          | none => rw [hn] at hb; exact absurd hb (by simp)
          | some n =>
            rw [hn] at hb
            dsimp only at hb
            have hr := Except.ok.inj hb
            rw [← hr] at hm2
            obtain ⟨a, _, ha⟩ := List.mem_filterMap.mp hm2
            exact processAssignmentB_bounds today _ a info ha
  · intro today endD a hbad
    rcases hbad with hnone | ⟨ds, hds, hfi⟩
    · unfold processAssignmentB
      rw [hnone]
    · unfold processAssignmentB
      rw [hds]
      simp [hfi]

/-- Closed instance of C2: a returned assignment due five days in lies
within the thirty-day window, and an assignment without `due_at` is
excluded. -/
theorem upcoming_assignments_date_filter_witness :
    ((0:Int) ≤ 432000 ∧ (432000:Int) ≤ 0 + 30 * secondsPerDay) ∧
    processAssignment 0 100 "c" 1
      { name := "A", id := 1, due_at := none, points_possible := none,
        submission_types := [], html_url := "", description := none } = none := by
  constructor
  · have h := upcoming_assignments_date_filter.1 30 0
      (Except.ok [{ id := 1, name := some "C" }])
      (fun _ => Except.ok
        [{ name := "HW"
           id := 7
           due_at := some (DateStr.valid 432000)
           points_possible := none
           submission_types := []
           html_url := ""
           description := none }])
      { course_name := "C"
        course_id := 1
        assignment_name := "HW"
        assignment_id := 7
        due_date := 432000
        points_possible := none
        submission_types := []
        html_url := ""
        description := []
        days_until_due := 5 }
      (by
        have hc : ("C" : String) ≠ "" := by decide
        norm_num [get_upcoming_assignments, upcomingBody, collectUpcoming,
          processAssignment, fromisoformat, truthyStr, sortByDueDate,
          descriptionField, secondsPerDay, List.mergeSort, List.filterMap, hc])
    exact h
  · exact upcoming_assignments_date_filter.2.1 0 100 "c" 1 _ (Or.inl rfl)

theorem assignmentConfidence_bounds (hint : Option String) (target d : Int)
    (tl : List Char) :
    0 ≤ assignmentConfidence hint target d tl ∧
    assignmentConfidence hint target d tl ≤ 1 := by
  simp only [assignmentConfidence]
  split_ifs <;>
    exact ⟨le_min (by norm_num) (by norm_num), min_le_right _ _⟩

theorem eventConfidence_bounds (hint : Option String) (target d : Int)
    (tl : List Char) :
    0 ≤ eventConfidence hint target d tl ∧
    eventConfidence hint target d tl ≤ 1 := by
  simp only [eventConfidence]
  split_ifs <;>
    exact ⟨le_min (by norm_num) (by norm_num), min_le_right _ _⟩

theorem assignmentCandidate_conf (hint : Option String) (target startD endD : Int)
    (cn : String) (ci : Int) (a : ARawAssignment) (c : Candidate)
    (h : assignmentCandidate hint target startD endD cn ci a = some c) :
    0 ≤ c.confidence_score ∧ c.confidence_score ≤ 1 := by
  simp only [assignmentCandidate] at h
  split at h
  · exact absurd h (by simp)
  · split at h
    · split at h
      · have he := Option.some.inj h
        rw [← he]
        exact assignmentConfidence_bounds hint target _ _
      · exact absurd h (by simp)
    · exact absurd h (by simp)

theorem eventCandidate_conf (hint : Option String) (target startD endD : Int)
    (cn : String) (ci : Int) (e : RawEvent) (c : Candidate)
    (h : eventCandidate hint target startD endD cn ci e = some c) :
    0 ≤ c.confidence_score ∧ c.confidence_score ≤ 1 := by
  simp only [eventCandidate] at h
  split at h
  · exact absurd h (by simp)
  · split at h
    · split at h
      · have he := Option.some.inj h
        rw [← he]
        exact eventConfidence_bounds hint target _ _
      · exact absurd h (by simp)
    · exact absurd h (by simp)

theorem courseCandidates_conf (hint : Option String) (target startD endD : Int)
    (fetch : Int → Except Unit (List ARawAssignment × List RawEvent))
    (co : ACourse) (c : Candidate)
    (h : c ∈ courseCandidates hint target startD endD fetch co) :
    0 ≤ c.confidence_score ∧ c.confidence_score ≤ 1 := by
  unfold courseCandidates at h
  cases hf : fetch co.id with
  | error u => rw [hf] at h; simp at h
  | ok p =>
    rw [hf] at h
    rcases List.mem_append.mp h with hl | hr
    · obtain ⟨a, _, ha⟩ := List.mem_filterMap.mp hl
      exact assignmentCandidate_conf hint target startD endD co.name co.id a c ha
    · obtain ⟨e, _, he⟩ := List.mem_filterMap.mp hr
      exact eventCandidate_conf hint target startD endD co.name co.id e c he

theorem sortByConfidence_sorted (l : List Candidate) :
    (sortByConfidence l).Pairwise
      (fun a b => b.confidence_score ≤ a.confidence_score) := by
  have h := List.sorted_mergeSort
    (fun (a b c : Candidate)
       (h1 : decide (b.confidence_score ≤ a.confidence_score))
       (h2 : decide (c.confidence_score ≤ b.confidence_score)) => by
         simp only [decide_eq_true_eq] at h1 h2 ⊢
         exact le_trans h2 h1)
    (fun (a b : Candidate) => by
       simp only [Bool.or_eq_true, decide_eq_true_eq]
       exact le_total _ _)
    l
  exact h.imp (by intro a b hb; simpa using hb)

/-- C3: `identify_test_by_context` keyword matching: an assignment or
event whose parsed date lies in the search window becomes a candidate
if and only if its lowercased title contains one of the test keywords;
every candidate confidence score lies in [0, 1]; candidates are
returned sorted by confidence descending and the best match is the
head (hence of maximal confidence). -/
theorem identify_test_keyword_matching :
    (∀ (hint : Option String) (target startD endD : Int) (cn : String)
       (ci : Int) (a : ARawAssignment) (d : Int),
       parse_date_string a.due_at = some d → startD ≤ d → d ≤ endD →
       ((assignmentCandidate hint target startD endD cn ci a).isSome = true ↔
         hasTestKeyword (lowerChars a.title) = true)) ∧
    (∀ (hint : Option String) (target startD endD : Int) (cn : String)
       (ci : Int) (e : RawEvent) (d : Int),
       parse_date_string e.start_at = some d → startD ≤ d → d ≤ endD →
       ((eventCandidate hint target startD endD cn ci e).isSome = true ↔
         hasTestKeyword (lowerChars e.title) = true)) ∧
    (∀ (ctx : String) (hint : Option String) (today : Int)
       (cE : Except String (List ACourse))
       (fetch : Int → Except Unit (List ARawAssignment × List RawEvent))
       (data : IdentifyData),
       identifyBody ctx hint today cE fetch = Except.ok data →
       (∀ c ∈ data.all_candidates,
          0 ≤ c.confidence_score ∧ c.confidence_score ≤ 1) ∧
       data.all_candidates.Pairwise
         (fun a b => b.confidence_score ≤ a.confidence_score) ∧
       data.best_match = data.all_candidates.head? ∧
       (∀ bm, data.best_match = some bm →
          ∀ c ∈ data.all_candidates, c.confidence_score ≤ bm.confidence_score)) := by
  refine ⟨?_, ?_, ?_⟩
  · intro hint target startD endD cn ci a d hp h1 h2
    simp only [assignmentCandidate]
    rw [hp]
    dsimp only
    rw [if_pos ⟨h1, h2⟩]
    cases hk : hasTestKeyword (lowerChars a.title) with
    | true => simp
    | false => simp
  · intro hint target startD endD cn ci e d hp h1 h2
    simp only [eventCandidate]
    rw [hp]
    dsimp only
    rw [if_pos ⟨h1, h2⟩]
    cases hk : hasTestKeyword (lowerChars e.title) with
    | true => simp
    | false => simp
  · intro ctx hint today cE fetch data hok
    unfold identifyBody at hok
    cases hcE : cE with
    | error e => rw [hcE] at hok; exact absurd hok (by simp)
    | ok cs =>
      rw [hcE] at hok
      dsimp only at hok
      have hd := Except.ok.inj hok
      rw [← hd]
      dsimp only
      constructor
      · intro c hc
        rw [show sortByConfidence = fun l => l.mergeSort
              (fun x y => decide (y.confidence_score ≤ x.confidence_score))
            from rfl] at hc
        rw [List.mem_mergeSort] at hc
        obtain ⟨part, hpart, hcp⟩ := List.mem_flatten.mp hc
        obtain ⟨co, _, hco⟩ := List.mem_map.mp hpart
        rw [← hco] at hcp
        exact courseCandidates_conf hint _ _ _ fetch co c hcp
      · refine ⟨sortByConfidence_sorted _, rfl, ?_⟩
        intro bm hbm c hc
        cases hsort : sortByConfidence
            ((List.map (courseCandidates hint (identifyTarget ctx today)
              (identifyTarget ctx today - 2 * secondsPerDay)
              (identifyTarget ctx today + 2 * secondsPerDay) fetch)
              (filterBySubject hint cs)).flatten) with
        | nil =>
          rw [hsort] at hc
          simp at hc
        | cons x xs =>
          rw [hsort] at hbm hc
          simp only [List.head?] at hbm
          have hx : x = bm := Option.some.inj hbm
          have hp := sortByConfidence_sorted
            ((List.map (courseCandidates hint (identifyTarget ctx today)
              (identifyTarget ctx today - 2 * secondsPerDay)
              (identifyTarget ctx today + 2 * secondsPerDay) fetch)
              (filterBySubject hint cs)).flatten)
          rw [hsort] at hp
          rcases List.mem_cons.mp hc with hceq | hcrest
          · rw [hceq, hx]
          · have := (List.pairwise_cons.mp hp).1 c hcrest
            rw [← hx]
            exact this

/-- Closed instance of C3: a "Midterm Exam" assignment inside the
window is picked up as a candidate, and a run with no courses returns
a (vacuously) descending candidate list. -/
theorem identify_test_keyword_matching_witness :
    (assignmentCandidate none 604800 432000 777600 "Math" 1
      { id := 5, title := "Midterm Exam", due_at := some (DateStr.valid 604800),
        points_possible := none, html_url := "", description := "" }).isSome = true ∧
    ([] : List Candidate).Pairwise
      (fun a b => b.confidence_score ≤ a.confidence_score) := by
  constructor
  · exact (identify_test_keyword_matching.1 none 604800 432000 777600 "Math" 1
      { id := 5, title := "Midterm Exam", due_at := some (DateStr.valid 604800),
        points_possible := none, html_url := "", description := "" }
      604800 rfl (by decide) (by decide)).mpr (by decide)
  · have h1 : containsSub ['t','h','u','r','s','d','a','y']
        (lowerChars "nothing") = false := by decide
    have h2 : containsSub ['f','r','i','d','a','y']
        (lowerChars "nothing") = false := by decide
    have h3 : containsSub ['n','e','x','t',' ','w','e','e','k']
        (lowerChars "nothing") = false := by decide
    have h4 : containsSub ['t','h','i','s',' ','w','e','e','k']
        (lowerChars "nothing") = false := by decide
    have hbody : identifyBody "nothing" none 0 (Except.ok [])
        (fun _ => Except.error ()) =
        Except.ok { best_match := none, all_candidates := [], total_candidates := 0,
                    target_date := 604800, window_start := 432000,
                    window_end := 777600 } := by
      simp [identifyBody, identifyTarget, filterBySubject, sortByConfidence,
            List.mergeSort, secondsPerDay, truthyStr, h1, h2, h3, h4]
    exact (identify_test_keyword_matching.2.2 "nothing" none 0 _ _ _ hbody).2.1

theorem pyWeekday_nonneg (t : Int) : 0 ≤ pyWeekday t :=
  Int.emod_nonneg _ (by norm_num)

theorem pyWeekday_lt (t : Int) : pyWeekday t < 7 :=
  Int.emod_lt_of_pos _ (by norm_num)

theorem pyWeekday_add_days (t k : Int) :
    pyWeekday (t + k * secondsPerDay) = (pyWeekday t + k) % 7 := by
  unfold pyWeekday secondsPerDay
  rw [Int.add_mul_ediv_right t k (by norm_num)]
  omega

/-- C4: `identify_test_by_context` resolves the date context by fixed
offsets: a context containing `thursday` (or, failing that, `friday`)
targets the next strictly-future Thursday (or Friday); otherwise
`next week` targets today plus 7 days, `this week` today plus 3 days,
and anything else today plus 7 days; the search window is always the
target plus or minus 2 days. -/
theorem identify_test_date_offsets :
    ∀ (ctx : String) (today : Int),
    (containsSub "thursday".toList (lowerChars ctx) = true →
       ∃ k : Int, identifyTarget ctx today = today + k * secondsPerDay ∧
         1 ≤ k ∧ k ≤ 7 ∧ pyWeekday (identifyTarget ctx today) = 3) ∧
    (containsSub "thursday".toList (lowerChars ctx) = false →
     containsSub "friday".toList (lowerChars ctx) = true →
       ∃ k : Int, identifyTarget ctx today = today + k * secondsPerDay ∧
         1 ≤ k ∧ k ≤ 7 ∧ pyWeekday (identifyTarget ctx today) = 4) ∧
    (containsSub "thursday".toList (lowerChars ctx) = false →
     containsSub "friday".toList (lowerChars ctx) = false →
     containsSub "next week".toList (lowerChars ctx) = true →
       identifyTarget ctx today = today + 7 * secondsPerDay) ∧
    (containsSub "thursday".toList (lowerChars ctx) = false →
     containsSub "friday".toList (lowerChars ctx) = false →
     containsSub "next week".toList (lowerChars ctx) = false →
     containsSub "this week".toList (lowerChars ctx) = true →
       identifyTarget ctx today = today + 3 * secondsPerDay) ∧
    (containsSub "thursday".toList (lowerChars ctx) = false →
     containsSub "friday".toList (lowerChars ctx) = false →
     containsSub "next week".toList (lowerChars ctx) = false →
     containsSub "this week".toList (lowerChars ctx) = false →
       identifyTarget ctx today = today + 7 * secondsPerDay) ∧
    (∀ (hint : Option String) (cE : Except String (List ACourse))
       (fetch : Int → Except Unit (List ARawAssignment × List RawEvent))
       (data : IdentifyData),
       identifyBody ctx hint today cE fetch = Except.ok data →
       data.target_date = identifyTarget ctx today ∧
       data.window_start = identifyTarget ctx today - 2 * secondsPerDay ∧
       data.window_end = identifyTarget ctx today + 2 * secondsPerDay) := by
  intro ctx today
  have hw0 := pyWeekday_nonneg today
  have hw1 := pyWeekday_lt today
  refine ⟨?_, ?_, ?_, ?_, ?_, ?_⟩
  · intro h
    simp only [identifyTarget]
    rw [if_pos h]
    refine ⟨_, rfl, ?_, ?_, ?_⟩
    · split_ifs with hc <;> omega
    · split_ifs with hc <;> omega
    · rw [pyWeekday_add_days]
      split_ifs with hc <;> omega
  · intro h hf
    simp only [identifyTarget]
    rw [if_neg (by simpa using h), if_pos hf]
    refine ⟨_, rfl, ?_, ?_, ?_⟩
    · split_ifs with hc <;> omega
    · split_ifs with hc <;> omega
    · rw [pyWeekday_add_days]
      split_ifs with hc <;> omega
  · intro h hf hn
    simp only [identifyTarget]
    rw [if_neg (by simpa using h), if_neg (by simpa using hf), if_pos hn]
  · intro h hf hn ht
    simp only [identifyTarget]
    rw [if_neg (by simpa using h), if_neg (by simpa using hf), if_neg (by simpa using hn),
        if_pos ht]
  · intro h hf hn ht
    simp only [identifyTarget]
    rw [if_neg (by simpa using h), if_neg (by simpa using hf), if_neg (by simpa using hn),
        if_neg (by simpa using ht)]
  · intro hint cE fetch data hok
    unfold identifyBody at hok
    cases hcE : cE with
    | error e => rw [hcE] at hok; exact absurd hok (by simp)
    | ok cs =>
      rw [hcE] at hok
      dsimp only at hok
      have hd := Except.ok.inj hok
      rw [← hd]
      exact ⟨rfl, rfl, rfl⟩

/-- Closed instance of C4: a `thursday` context from day 0 targets the
next future Thursday; a context with no date words defaults to today
plus seven days. -/
theorem identify_test_date_offsets_witness :
    (∃ k : Int, identifyTarget "thursday" 0 = 0 + k * secondsPerDay ∧
       1 ≤ k ∧ k ≤ 7 ∧ pyWeekday (identifyTarget "thursday" 0) = 3) ∧
    identifyTarget "gibberish" 0 = 0 + 7 * secondsPerDay := by
  constructor
  · exact (identify_test_date_offsets "thursday" 0).1 (by decide)
  · exact (identify_test_date_offsets "gibberish" 0).2.2.2.2.1
      (by decide) (by decide) (by decide) (by decide)

theorem codePct_eq_claim (cp pp cas ap thr : ℚ) (hap : 0 ≤ ap) :
    (if ap > 0 then
       (thr / 100 * newPointsPossibleFinal pp ap cas - (cp - cas)) / ap * 100
     else 0) = claimMinPct cp pp cas ap thr := by
  rcases eq_or_lt_of_le hap with heq | hlt
  · rw [if_neg (by rw [← heq]; exact lt_irrefl 0)]
    unfold claimMinPct
    rw [← heq, div_zero, zero_mul]
  · rw [if_pos hlt]
    rfl

theorem assoc_key_unique {β : Type} :
    ∀ (l : List (String × β)), (l.map Prod.fst).Nodup →
      ∀ (g : String) (a b : β), (g, a) ∈ l → (g, b) ∈ l → a = b := by
  intro l
  induction l with
  | nil => intro _ g a b ha _; simp at ha
  | cons p rest ih =>
    intro hnd g a b ha hb
    rw [List.map_cons, List.nodup_cons] at hnd
    rcases List.mem_cons.mp ha with ha1 | ha2
    · rcases List.mem_cons.mp hb with hb1 | hb2
      · rw [← ha1] at hb1
        exact ((Prod.mk.inj hb1).2).symm
      · have hp1 : p.1 = g := by rw [← ha1]
        exact absurd (List.mem_map.mpr ⟨(g, b), hb2, hp1.symm⟩) hnd.1
    · rcases List.mem_cons.mp hb with hb1 | hb2
      · have hp1 : p.1 = g := by rw [← hb1]
        exact absurd (List.mem_map.mpr ⟨(g, a), ha2, hp1.symm⟩) hnd.1
      · exact ih hnd.2 g a b ha2 hb2

theorem letter_grade_thresholds_key_unique (g : String) (a b : ℚ)
    (ha : (g, a) ∈ letter_grade_thresholds)
    (hb : (g, b) ∈ letter_grade_thresholds) : a = b :=
  assoc_key_unique letter_grade_thresholds (by decide) g a b ha hb

theorem minimum_scores_mem (cp pp cas ap : ℚ) (hap : 0 ≤ ap) (g : String) (v pts : ℚ)
    (hm : (g, v, pts) ∈ minimum_scores_for_letter_grades cp pp cas ap) :
    ∃ thr, (g, thr) ∈ letter_grade_thresholds ∧
      0 ≤ claimMinPct cp pp cas ap thr ∧ claimMinPct cp pp cas ap thr ≤ 100 ∧
      v = pyRound1 (claimMinPct cp pp cas ap thr) := by
  unfold minimum_scores_for_letter_grades at hm
  obtain ⟨gt, hgt, hsome⟩ := List.mem_filterMap.mp hm
  dsimp only at hsome
  rw [codePct_eq_claim cp pp cas ap gt.2 hap] at hsome
  split at hsome
  · rename_i hcond
    have he := Option.some.inj hsome
    refine ⟨gt.2, ?_, hcond.1, hcond.2, ?_⟩
    · have hg : gt.1 = g := congrArg Prod.fst he
      rw [← hg]
      simpa using hgt
    · have hv := congrArg (fun p => p.2.1) he
      exact hv.symm
  · exact absurd hsome (by simp)

theorem minimum_scores_mem_of (cp pp cas ap : ℚ) (hap : 0 ≤ ap) (g : String)
    (thr : ℚ) (hmem : (g, thr) ∈ letter_grade_thresholds)
    (h0 : 0 ≤ claimMinPct cp pp cas ap thr)
    (h100 : claimMinPct cp pp cas ap thr ≤ 100) :
    (g, pyRound1 (claimMinPct cp pp cas ap thr),
      pyRound1 (thr / 100 * newPointsPossibleFinal pp ap cas - (cp - cas))) ∈
      minimum_scores_for_letter_grades cp pp cas ap := by
  unfold minimum_scores_for_letter_grades
  apply List.mem_filterMap.mpr
  refine ⟨(g, thr), hmem, ?_⟩
  dsimp only
  rw [codePct_eq_claim cp pp cas ap thr hap]
  rw [if_pos ⟨h0, h100⟩]

/-- C5 counterexample: with current_points 55, possible_points 70, an
ungraded assignment worth 30 points, the reported C+ minimum
percentage is the rounded 73.3, not the exact formula value 220/3. -/
theorem grade_impact_rounding_counterexample :
    (minimum_scores_for_letter_grades 55 70 0 30).find? (fun e => e.1 = "C+") =
      some ("C+", 733/10, 22) ∧
    (733/10 : ℚ) ≠ ((77:ℚ)/100 * (70 + 30) - (55 - 0)) / 30 * 100 := by
  constructor
  · norm_num [minimum_scores_for_letter_grades, letter_grade_thresholds,
      newPointsPossibleFinal, pyRound1, List.filterMap, List.find?]
    rfl
  · norm_num

/-- C5 (amended): for nonnegative assignment_points, a letter grade
appears in minimum_scores_for_letter_grades if and only if the formula
value `((t/100) * total_possible_points - (current_points -
current_assignment_score)) / assignment_points * 100` lies in
[0, 100], and the reported minimum percentage is that formula value
rounded to one decimal place (Python `round(x, 1)`). -/
theorem grade_impact_minimum_scores :
    ∀ (cp pp cas ap : ℚ), 0 ≤ ap →
    (∀ (g : String) (v pts : ℚ),
       (g, v, pts) ∈ minimum_scores_for_letter_grades cp pp cas ap →
       ∃ thr, (g, thr) ∈ letter_grade_thresholds ∧
         0 ≤ claimMinPct cp pp cas ap thr ∧
         claimMinPct cp pp cas ap thr ≤ 100 ∧
         v = pyRound1 (claimMinPct cp pp cas ap thr)) ∧
    (∀ (g : String) (thr : ℚ),
       (g, thr) ∈ letter_grade_thresholds →
       0 ≤ claimMinPct cp pp cas ap thr →
       claimMinPct cp pp cas ap thr ≤ 100 →
       ∃ pts, (g, pyRound1 (claimMinPct cp pp cas ap thr), pts) ∈
         minimum_scores_for_letter_grades cp pp cas ap) ∧
    (∀ (g : String) (thr : ℚ),
       (g, thr) ∈ letter_grade_thresholds →
       ¬(0 ≤ claimMinPct cp pp cas ap thr ∧ claimMinPct cp pp cas ap thr ≤ 100) →
       ∀ (v pts : ℚ),
         (g, v, pts) ∉ minimum_scores_for_letter_grades cp pp cas ap) := by
  intro cp pp cas ap hap
  refine ⟨?_, ?_, ?_⟩
  · intro g v pts hm
    exact minimum_scores_mem cp pp cas ap hap g v pts hm
  · intro g thr hmem h0 h100
    exact ⟨_, minimum_scores_mem_of cp pp cas ap hap g thr hmem h0 h100⟩
  · intro g thr hmem hrange v pts hm
    obtain ⟨thr2, hmem2, h0, h100, _⟩ :=
      minimum_scores_mem cp pp cas ap hap g v pts hm
    have : thr = thr2 := letter_grade_thresholds_key_unique g thr thr2 hmem hmem2
    rw [this] at hrange
    exact hrange ⟨h0, h100⟩

/-- Closed instance of C5: an A (threshold 93) needing more than 100
percent on the assignment is absent from the reported table. -/
theorem grade_impact_minimum_scores_witness :
    ("A", (0:ℚ), (0:ℚ)) ∉ minimum_scores_for_letter_grades 55 70 0 30 :=
  (grade_impact_minimum_scores 55 70 0 30 (by norm_num)).2.2 "A" 93
    (by simp [letter_grade_thresholds])
    (by
      norm_num [claimMinPct, newPointsPossibleFinal])
    0 0

/-- C6: The spec-modelled TTL cache: a stored entry younger than the
TTL is served without a new HTTP request and without changing the
cache; a miss fetches and stores; and entries for other endpoints are
never evicted. -/
theorem cache_ttl_behavior :
    ∀ (α : Type) (st : CacheState α) (now ttl : Int) (endpoint : String)
      (fetched : α) (ts : Int) (v : α),
    (st.entries.find? (fun e => e.1 = endpoint) = some (endpoint, ts, v) →
     now - ts < ttl →
     cachedRequest st now ttl endpoint fetched = (v, st, false)) ∧
    (st.entries.find? (fun e => e.1 = endpoint) = none →
     cachedRequest st now ttl endpoint fetched =
       (fetched, cacheStore st endpoint now fetched, true)) ∧
    (∀ e2, e2 ∈ st.entries → e2.1 ≠ endpoint →
       e2 ∈ (cachedRequest st now ttl endpoint fetched).2.1.entries) := by
  intro α st now ttl endpoint fetched ts v
  refine ⟨?_, ?_, ?_⟩
  · intro hf hlt
    unfold cachedRequest
    rw [hf]
    dsimp only
    rw [if_pos hlt]
  · intro hf
    unfold cachedRequest
    rw [hf]
  · intro e2 hmem hne
    unfold cachedRequest
    cases hf : st.entries.find? (fun e => e.1 = endpoint) with
    | some e =>
      dsimp only
      by_cases hlt : now - e.2.1 < ttl
      · rw [if_pos hlt]; exact hmem
      · rw [if_neg hlt]
        dsimp only
        unfold cacheStore
        apply List.mem_cons_of_mem
        apply List.mem_filter.mpr
        exact ⟨hmem, by simpa using hne⟩
    | none =>
      dsimp only
      unfold cacheStore
      apply List.mem_cons_of_mem
      apply List.mem_filter.mpr
      exact ⟨hmem, by simpa using hne⟩

/-- Closed instance of C6: a repeat of endpoint `a` five seconds in
(TTL ten) is served from the cache with no HTTP request, and a request
for endpoint `b` does not evict the entry for `a`. -/
theorem cache_ttl_behavior_witness :
    cachedRequest (CacheState.mk [("a", 0, (42:Nat))]) 5 10 "a" 99 =
      (42, CacheState.mk [("a", 0, 42)], false) ∧
    ("a", 0, (42:Nat)) ∈
      (cachedRequest (CacheState.mk [("a", 0, (42:Nat))]) 5 10 "b" 7).2.1.entries :=
  ⟨(cache_ttl_behavior Nat (CacheState.mk [("a", 0, 42)]) 5 10 "a" 99 0 42).1
      (by decide) (by decide),
   (cache_ttl_behavior Nat (CacheState.mk [("a", 0, 42)]) 5 10 "b" 7 0 42).2.2
      ("a", 0, 42) (by decide) (by decide)⟩

/-- C7 counterexample: with the course list split over two pages, the
single-request `make_canvas_request` path of canvas_mcp.py sees only
the first page, so `get_upcoming_assignments` misses the assignment of
the course on page two, while full pagination exposes both courses. -/
theorem pagination_first_page_counterexample :
    (get_all_paginated_data c7pages).map RawCourse.id = [1, 2] ∧
    (get_upcoming_assignments 30 0 (Except.ok (firstPageOnly c7pages))
        c7fetch).assignments.map (fun i => i.course_id) = [1] ∧
    (get_upcoming_assignments 30 0 (Except.ok (firstPageOnly c7pages))
        c7fetch).success = true := by
  refine ⟨by decide, ?_, ?_⟩
  · have hc : ("Course One" : String) ≠ "" := by decide
    norm_num [get_upcoming_assignments, upcomingBody, collectUpcoming,
      processAssignment, fromisoformat, truthyStr, sortByDueDate,
      descriptionField, secondsPerDay, List.mergeSort, List.filterMap,
      c7pages, c7fetch, firstPageOnly, hc]
  · have hc : ("Course One" : String) ≠ "" := by decide
    norm_num [get_upcoming_assignments, upcomingBody, collectUpcoming,
      processAssignment, fromisoformat, truthyStr, sortByDueDate,
      descriptionField, secondsPerDay, List.mergeSort, List.filterMap,
      c7pages, c7fetch, firstPageOnly, hc]

/-- C7 (amended): the tools that fetch through `get_all_paginated_data`
(spec-modelled, missing from src/) do traverse all pages: every item of
every page of a list endpoint ends up in the returned collection.  The
canvas_mcp.py tools instead issue one request and receive only the
first page. -/
theorem paginated_fetch_complete :
    ∀ (α : Type) (pages : List (List α)) (page : List α) (x : α),
      page ∈ pages → x ∈ page → x ∈ get_all_paginated_data pages := by
  intro α pages
  induction pages with
  | nil => intro page x hp _; simp at hp
  | cons p rest ih =>
    intro page x hp hx
    unfold get_all_paginated_data
    rcases List.mem_cons.mp hp with rfl | hrest
    · exact List.mem_append_left _ hx
    · exact List.mem_append_right _ (ih page x hrest hx)

/-- Closed instance of C7 (amended): an item on the second page is in
the paginated fetch result. -/
theorem paginated_fetch_complete_witness :
    2 ∈ get_all_paginated_data [[1], [2]] :=
  paginated_fetch_complete Nat [[1], [2]] [2] 2 (by decide) (by decide)

theorem fillDay_le (avail : ℚ) :
    ∀ (topics : List PlanTopic) (used : ℚ), used ≤ avail →
      (fillDay avail used topics).2.1 ≤ avail := by
  intro topics
  induction topics with
  | nil => intro used h; simpa [fillDay] using h
  | cons t rest ih =>
    intro used h
    unfold fillDay
    by_cases h1 : used < avail
    · rw [if_pos h1]
      by_cases h2 : t.estimated_hours ≤ avail - used
      · rw [if_pos h2]
        dsimp only
        exact ih (used + t.estimated_hours) (by linarith)
      · rw [if_neg h2]
    · rw [if_neg h1]
      simpa using h

theorem buildSchedule_length (avail : ℚ) :
    ∀ (n : Nat) (day : Int) (topics : List PlanTopic),
      (buildSchedule avail n day topics).length = n := by
  intro n
  induction n with
  | zero => intro day topics; rfl
  | succ m ih =>
    intro day topics
    unfold buildSchedule
    simp [ih]

theorem buildSchedule_total_le (avail : ℚ) (hnn : 0 ≤ avail) :
    ∀ (n : Nat) (day : Int) (topics : List PlanTopic) (d : DaySchedule),
      d ∈ buildSchedule avail n day topics → d.total_hours ≤ avail := by
  intro n
  induction n with
  | zero => intro day topics d hd; simp [buildSchedule] at hd
  | succ m ih =>
    intro day topics d hd
    unfold buildSchedule at hd
    dsimp only at hd
    rcases List.mem_cons.mp hd with rfl | hrest
    · exact fillDay_le avail topics 0 hnn
    · exact ih _ _ d hrest

/-- C10 counterexample: with a negative caller-supplied
`hours_available` of -1 and one nonempty module, `create_study_plan`
succeeds and every day entry has total_hours 0, which exceeds the
budget -1: the per-day budget invariant fails as universally stated. -/
theorem study_plan_negative_hours_counterexample :
    ((create_study_plan (DateStr.valid 432000) 0
        (Except.ok { id := 1, name := "C" })
        (Except.ok c10modules) (some (-1))).data.map
        (fun pd => pd.study_schedule.map (fun d => d.total_hours))) =
      some [0, 0, 0, 0, 0] ∧
    (create_study_plan (DateStr.valid 432000) 0
        (Except.ok { id := 1, name := "C" })
        (Except.ok c10modules) (some (-1))).success = true ∧
    ¬((0:ℚ) ≤ -1) := by
  have hm : ("M" : String) ≠ "" := by decide
  refine ⟨?_, ?_, by norm_num⟩
  · norm_num [create_study_plan, parse_date_string, fromisoformat,
      secondsPerDay, buildTopics, scaleTopics, buildSchedule, fillDay,
      format_response, c10modules, truthyStr, List.filterMap, List.filter, hm]
  · norm_num [create_study_plan, parse_date_string, fromisoformat,
      secondsPerDay, buildTopics, scaleTopics, buildSchedule, fillDay,
      format_response, c10modules, truthyStr, List.filterMap, List.filter, hm]

/-- C10 (amended): `create_study_plan` reports "Invalid exam date
format" for an unparseable date and "Exam date is in the past" when
the exam is not strictly in the future; on success with a nonnegative
caller-supplied `hours_available` (or the auto-computed 2.0/3.0/4.0
hours), the schedule has exactly `days_until_exam` day entries and
every day entry has `total_hours` at most the hours budget. -/
theorem study_plan_budget_invariant :
    ∀ (exam_date : DateStr) (today : Int)
      (courseE : Except String ACourse)
      (modulesE : Except String (List CModule)) (hours_available : Option ℚ),
    (parse_date_string (some exam_date) = none →
       create_study_plan exam_date today courseE modulesE hours_available =
         format_response false none (some "Invalid exam date format")) ∧
    (∀ exam_t, parse_date_string (some exam_date) = some exam_t →
       exam_t ≤ today →
       create_study_plan exam_date today courseE modulesE hours_available =
         format_response false none (some "Exam date is in the past")) ∧
    (∀ h, hours_available = some h → 0 ≤ h →
       ∀ pd, (create_study_plan exam_date today courseE modulesE
           hours_available).data = some pd →
         pd.study_schedule.length = pd.days_until_exam.toNat ∧
         1 ≤ pd.days_until_exam ∧
         pd.hours_per_day = h ∧
         ∀ d ∈ pd.study_schedule, d.total_hours ≤ pd.hours_per_day) ∧
    (hours_available = none →
       ∀ pd, (create_study_plan exam_date today courseE modulesE
           hours_available).data = some pd →
         pd.study_schedule.length = pd.days_until_exam.toNat ∧
         1 ≤ pd.days_until_exam ∧
         (14 ≤ pd.days_until_exam → pd.hours_per_day = 2) ∧
         (7 ≤ pd.days_until_exam → pd.days_until_exam < 14 →
            pd.hours_per_day = 3) ∧
         (pd.days_until_exam < 7 → pd.hours_per_day = 4) ∧
         ∀ d ∈ pd.study_schedule, d.total_hours ≤ pd.hours_per_day) := by
  intro exam_date today courseE modulesE hours_available
  refine ⟨?_, ?_, ?_, ?_⟩
  · intro hp
    unfold create_study_plan
    rw [hp]
  · intro exam_t hp hle
    unfold create_study_plan
    rw [hp]
    dsimp only
    rw [if_pos (by simp only [secondsPerDay]; omega :
      (exam_t - today) / secondsPerDay ≤ 0)]
  · intro h hha hnn pd hd
    rw [hha] at hd
    unfold create_study_plan at hd
    cases hp : parse_date_string (some exam_date) with
    | none => rw [hp] at hd; simp [format_response] at hd
    | some exam_t =>
      rw [hp] at hd
      dsimp only at hd
      by_cases hdays : (exam_t - today) / secondsPerDay ≤ 0
      · rw [if_pos hdays] at hd; simp [format_response] at hd
      · rw [if_neg hdays] at hd
        cases hcE : courseE with
        | error e => rw [hcE] at hd; simp [format_response] at hd
        | ok course =>
          rw [hcE] at hd
          dsimp only at hd
          cases hmE : modulesE with
          | error e => rw [hmE] at hd; simp [format_response] at hd
          | ok modules =>
            rw [hmE] at hd
            dsimp only at hd
            cases hsc : scaleTopics
                ((((exam_t - today) / secondsPerDay : Int) : ℚ) * h)
                (buildTopics modules) with
            | error e => rw [hsc] at hd; simp [format_response] at hd
            | ok topics =>
              rw [hsc] at hd
              simp only [format_response] at hd
              have hpd := Option.some.inj hd
              rw [← hpd]
              refine ⟨buildSchedule_length h _ today topics,
                by dsimp only; omega, rfl, ?_⟩
              intro d hdm
              exact buildSchedule_total_le h hnn _ today topics d hdm
  · intro hha pd hd
    rw [hha] at hd
    unfold create_study_plan at hd
    cases hp : parse_date_string (some exam_date) with
    | none => rw [hp] at hd; simp [format_response] at hd
    | some exam_t =>
      rw [hp] at hd
      dsimp only at hd
      by_cases hdays : (exam_t - today) / secondsPerDay ≤ 0
      · rw [if_pos hdays] at hd; simp [format_response] at hd
      · rw [if_neg hdays] at hd
        cases hcE : courseE with
        | error e => rw [hcE] at hd; simp [format_response] at hd
        | ok course =>
          rw [hcE] at hd
          dsimp only at hd
          cases hmE : modulesE with
          | error e => rw [hmE] at hd; simp [format_response] at hd
          | ok modules =>
            rw [hmE] at hd
            dsimp only at hd
            have hnn : (0:ℚ) ≤
                (if 14 ≤ (exam_t - today) / secondsPerDay then (2:ℚ)
                 else if 7 ≤ (exam_t - today) / secondsPerDay then 3 else 4) := by
              split_ifs <;> norm_num
            cases hsc : scaleTopics
                ((((exam_t - today) / secondsPerDay : Int) : ℚ) *
                  (if 14 ≤ (exam_t - today) / secondsPerDay then (2:ℚ)
                   else if 7 ≤ (exam_t - today) / secondsPerDay then 3 else 4))
                (buildTopics modules) with
            | error e => rw [hsc] at hd; simp [format_response] at hd
            | ok topics =>
              rw [hsc] at hd
              simp only [format_response] at hd
              have hpd := Option.some.inj hd
              rw [← hpd]
              refine ⟨buildSchedule_length _ _ today topics,
                by dsimp only; omega, ?_, ?_, ?_, ?_⟩
              · intro h14
                dsimp only at h14 ⊢
                rw [if_pos h14]
              · intro h7 h14
                dsimp only at h7 h14 ⊢
                rw [if_neg (by omega), if_pos h7]
              · intro h7
                dsimp only at h7 ⊢
                rw [if_neg (by omega), if_neg (by omega)]
              · intro d hdm
                exact buildSchedule_total_le _ hnn _ today topics d hdm

/-- Closed instance of C10: a same-instant exam is rejected as past,
and a one-day plan with 2 hours per day has exactly one day entry
within budget. -/
theorem study_plan_budget_invariant_witness :
    create_study_plan (DateStr.valid 0) 5 (Except.ok { id := 1, name := "C" })
        (Except.ok []) (some 2) =
      format_response false none (some "Exam date is in the past") ∧
    (create_study_plan (DateStr.valid 86400) 0 (Except.ok { id := 1, name := "C" })
        (Except.ok []) (some 2)).data.map
        (fun pd => pd.study_schedule.length) = some 1 := by
  constructor
  · exact (study_plan_budget_invariant (DateStr.valid 0) 5
      (Except.ok { id := 1, name := "C" }) (Except.ok []) (some 2)).2.1 0 rfl
      (by norm_num)
  · have hd : (create_study_plan (DateStr.valid 86400) 0
        (Except.ok { id := 1, name := "C" }) (Except.ok []) (some 2)).data =
        some { course_name := "C", days_until_exam := 1, hours_per_day := 2,
               total_available_hours := 2,
               study_schedule := [{ date := 0, topics := [], total_hours := 0 }],
               total_days := 1, total_topics := 0,
               average_hours_per_day := 2 } := by
      norm_num [create_study_plan, parse_date_string, fromisoformat,
        secondsPerDay, buildTopics, scaleTopics, buildSchedule, fillDay,
        format_response, List.filterMap]
    have h := (study_plan_budget_invariant (DateStr.valid 86400) 0
        (Except.ok { id := 1, name := "C" }) (Except.ok []) (some 2)).2.2.1 2 rfl
        (by norm_num) _ hd
    rw [hd]
    exact congrArg some h.1
